import Mathlib

/-!
Verification of the pilgrimage-guide web page logic: a shallow embedding of
`script.js` (search engine, checklist accordion, search history, app
initialization) and `service-worker.js` (cache-first fetch strategy, runtime
caching allow-list, cache version purge), with theorems settling the
specification's claims about them.
-/

/-- JS `String.prototype.toLowerCase`, modelled character-wise
(ASCII case folding; the synonym table and data are Korean, which has no case). -/
def jsToLower (s : String) : String := ⟨s.data.map Char.toLower⟩

/-- JS `String.prototype.trim`: drop leading and trailing whitespace. -/
def jsTrim (s : String) : String :=
  ⟨((s.data.dropWhile Char.isWhitespace).reverse.dropWhile Char.isWhitespace).reverse⟩

/-- `leadsWith pat l` is true when `pat` is an initial segment of `l`. -/
def leadsWith : List Char → List Char → Bool
  | [], _ => true
  | _ :: _, [] => false
  | p :: ps, c :: cs => p == c && leadsWith ps cs

/-- JS `String.prototype.includes`: substring containment. -/
def strIncludes (hay pat : String) : Bool :=
  (List.range (hay.data.length + 1)).any (fun i => leadsWith pat.data (hay.data.drop i))

/-- The static synonym table `SEARCH_SYNONYMS` of `script.js`. -/
def SEARCH_SYNONYMS : List (String × List String) :=
  [("파리", ["파리", "에펠탑", "루브르"]),
   ("스위스", ["스위스", "융프라우"]),
   ("이탈리아", ["이탈리아", "로마"]),
   ("항공", ["항공", "출발", "도착"]),
   ("날씨", ["날씨", "옷", "패딩"]),
   ("준비물", ["준비물", "짐", "여권"]),
   ("비용", ["비용", "회비", "유로"])]

/-- JS `Set.add` with insertion order preserved (how `expandedTerms` grows). -/
def insertTerm (acc : List String) (t : String) : List String :=
  if t ∈ acc then acc else acc ++ [t]

/-- One iteration of the `for (const [key, synonyms] of Object.entries(SEARCH_SYNONYMS))`
loop of `expandSearchQuery`: if some synonym of the entry occurs in the
lower-cased query, all lower-cased synonyms of the entry are added. -/
def expandEntry (q : String) (acc : List String) (entry : String × List String) : List String :=
  if entry.2.any (fun syn => strIncludes (jsToLower q) (jsToLower syn)) then
    entry.2.foldl (fun a syn => insertTerm a (jsToLower syn)) acc
  else
    acc

/-- `expandSearchQuery` of `script.js`: a query shorter than 2 characters expands
to the singleton of the raw query; otherwise the set starts from the lower-cased
query and each matched synonym entry contributes all its synonyms. -/
def expandSearchQuery (q : String) : List String :=
  if q.length < 2 then [q]
  else SEARCH_SYNONYMS.foldl (expandEntry q) [jsToLower q]

/-- The per-item match test of `SearchManager.performSearch`:
`expandedTerms.some(term => content.includes(term) && term.length > 0)`
on the lower-cased item content. -/
def itemMatches (terms : List String) (content : String) : Bool :=
  terms.any (fun term => strIncludes (jsToLower content) term && term.length != 0)

/-- A rendered page section: its element id and the searchable content string of
each of its searchable items (`[data-search-content], .itinerary-day-card`). -/
structure Sec where
  id : String
  items : List String
deriving DecidableEq

/-- The DOM effect of `performSearch` on one section: per-item visibility,
the section's `hidden` class, and the checklist `open` flags. -/
structure SecResult where
  itemShown : List Bool
  hidden : Bool
  openFlags : List Bool
deriving DecidableEq

/-- The checklist auto-expansion inside `performSearch`: every matching item's
category content gets the `open` class; non-matching categories keep their state. -/
def autoExpand (terms : List String) (contents : List String) (flags : List Bool) : List Bool :=
  (contents.zip flags).map (fun p => p.2 || itemMatches terms p.1)

/-- The body of the `allSections.forEach` loop of `performSearch`: items are shown
iff they match, the section is hidden iff it has items and none match
(`classList.toggle('hidden', !sectionHasResults && items.length > 0)`), and in
the `checklist` section matching categories are force-opened. -/
def performSearchSection (terms : List String) (s : Sec) (flags : List Bool) : SecResult :=
  { itemShown := s.items.map (itemMatches terms)
    hidden := !(s.items.any (itemMatches terms)) && !s.items.isEmpty
    openFlags := if s.id = "checklist" then autoExpand terms s.items flags else flags }

/-- The effect of `SearchManager.resetSearch` on one section: remove `hidden`,
restore every item's display; `open` flags are untouched. -/
def resetSection (s : Sec) (flags : List Bool) : SecResult :=
  { itemShown := s.items.map (fun _ => true)
    hidden := false
    openFlags := flags }

/-- Outcome of a search invocation: either the reset path ran or filtering ran. -/
inductive SearchResult where
  | wasReset (results : List SecResult)
  | filtered (results : List SecResult)
deriving DecidableEq

/-- `SearchManager.performSearch`: queries shorter than 2 characters reset;
otherwise every section is filtered against the expanded term set. -/
def performSearch (q : String) (secs : List Sec) (flags : List Bool) : SearchResult :=
  if q.length < 2 then SearchResult.wasReset (secs.map (fun s => resetSection s flags))
  else SearchResult.filtered (secs.map (fun s => performSearchSection (expandSearchQuery q) s flags))

/-- The debounced `input` handler of `SearchManager`: trims and lower-cases the
raw input value, then performs the search when it has at least 2 characters and
resets otherwise. -/
def handleInput (raw : String) (secs : List Sec) (flags : List Bool) : SearchResult :=
  if 2 ≤ (jsToLower (jsTrim raw)).length then performSearch (jsToLower (jsTrim raw)) secs flags
  else SearchResult.wasReset (secs.map (fun s => resetSection s flags))

/-- `SearchManager.saveSearchHistory`: guard on blank or short queries, remove
prior occurrences, push to the front, keep at most `MAX_SEARCH_HISTORY = 5`. -/
def saveSearchHistory (history : List String) (q : String) : List String :=
  if jsTrim q = "" ∨ q.length < 2 then history
  else (q :: history.filter (fun item => item != q)).take 5

/-- The `forEach` body of `Renderer.toggleChecklist` that closes every other
open category: all `open` flags are cleared. -/
def closeAll (s : List Bool) : List Bool := s.map (fun _ => false)

/-- `Renderer.toggleChecklist` on the list of per-category `open` flags: the
header at index `i` is clicked, every other category is closed, and the clicked
category's `open` class is toggled. -/
def toggleChecklist : List Bool → Nat → List Bool
  | [], _ => []
  | b :: rest, 0 => (!b) :: closeAll rest
  | _ :: rest, i + 1 => false :: toggleChecklist rest i

/-- Outcome of `App.init`: `ready` renders all sections; `error` terminates
initialization with nothing rendered. -/
inductive InitOutcome where
  | ready
  | error
deriving DecidableEq

/-- `App.init` of `script.js`: try the network fetch of `data.json`; on failure
read `appData` from storage, but take the offline-ready branch only when the
`loading` element is also present (`if (data && this.loading)`); otherwise
return early with the cannot-load message. -/
def appInit {α : Type} (fetched stored : Option α) (loadingPresent : Bool) : InitOutcome :=
  match fetched with
  | some _ => InitOutcome.ready
  | none =>
    match stored with
    | some _ => if loadingPresent then InitOutcome.ready else InitOutcome.error
    | none => InitOutcome.error

/-- The cache version constant `CACHE_NAME` of `service-worker.js`. -/
def CACHE_NAME : String := "pilgrimage-guide-v2.1"

/-- The `cacheWhitelist` of the `activate` handler. -/
def cacheWhitelist : List String := [CACHE_NAME]

/-- The cache stores surviving the `activate` handler: every name with
`cacheWhitelist.indexOf(cacheName) === -1` is deleted, so exactly the
whitelisted names remain. -/
def activateSurvivors (cacheNames : List String) : List String :=
  cacheNames.filter (fun n => decide (n ∈ cacheWhitelist))

/-- An intercepted request as seen by the worker's fetch handler. -/
structure Request where
  method : String
  url : String
deriving DecidableEq

/-- A response: HTTP status, response type, and a body identifying it. -/
structure Response where
  status : Nat
  rtype : String
  body : String
deriving DecidableEq

/-- What the fetch handler does with one event: not intercepted (non-GET),
respond with a response while recording whether the network ran and what was
put into the cache, or resolve with nothing after a network failure. -/
inductive FetchAction where
  | passthrough
  | respond (r : Response) (networkCalled : Bool) (stored : Option Response)
  | respondUndefined
deriving DecidableEq

/-- The runtime-caching allow-list check of the fetch handler:
`url.includes('.js') || url.includes('.css') || url.includes('.png') || url.includes('.json')`. -/
def shouldRuntimeCache (url : String) : Bool :=
  strIncludes url ".js" || strIncludes url ".css" || strIncludes url ".png" || strIncludes url ".json"

/-- The `fetch` event listener of `service-worker.js` (cache-first): non-GET
requests return unintercepted; a cache hit is answered from the cache without
calling the network; on a miss the network runs and a `200`/`basic` response
whose URL passes the allow-list is also put into the cache; the network
response itself is returned either way; a network failure resolves with
nothing. -/
def handleFetch (req : Request) (cached : Option Response) (network : Option Response) :
    FetchAction :=
  if req.method != "GET" then FetchAction.passthrough
  else
    match cached with
    | some r => FetchAction.respond r false none
    | none =>
      match network with
      | none => FetchAction.respondUndefined
      | some nr =>
        if nr.status != 200 || nr.rtype != "basic" then FetchAction.respond nr true none
        else if shouldRuntimeCache req.url then FetchAction.respond nr true (some nr)
        else FetchAction.respond nr true none

/-! ### Helper lemmas -/

lemma jsToLower_length (s : String) : (jsToLower s).length = s.length :=
  List.length_map _ _

lemma mem_insertTerm_of_mem {acc : List String} {x : String} (t : String) (h : x ∈ acc) :
    x ∈ insertTerm acc t := by
  unfold insertTerm
  split
  · exact h
  · exact List.mem_append_left _ h

lemma mem_insertTerm_self (acc : List String) (t : String) : t ∈ insertTerm acc t := by
  unfold insertTerm
  split
  · assumption
  · exact List.mem_append_right _ (List.mem_singleton.mpr rfl)

lemma mem_foldl_insert_of_mem {x : String} :
    ∀ (l : List String) (acc : List String), x ∈ acc →
      x ∈ l.foldl (fun a syn => insertTerm a (jsToLower syn)) acc := by
  intro l
  induction l with
  | nil => intro acc h; exact h
  | cons s rest ih => intro acc h; exact ih _ (mem_insertTerm_of_mem _ h)

lemma mem_foldl_insert_self :
    ∀ (l : List String) (acc : List String) (syn : String), syn ∈ l →
      jsToLower syn ∈ l.foldl (fun a s => insertTerm a (jsToLower s)) acc := by
  intro l
  induction l with
  | nil => intro acc syn h; cases h
  | cons s rest ih =>
    intro acc syn h
    rcases List.mem_cons.mp h with h1 | h2
    · subst h1
      exact mem_foldl_insert_of_mem rest _ (mem_insertTerm_self acc _)
    · exact ih _ _ h2

lemma mem_expandEntry_of_mem {q x : String} {acc : List String}
    (e : String × List String) (h : x ∈ acc) : x ∈ expandEntry q acc e := by
  unfold expandEntry
  split
  · exact mem_foldl_insert_of_mem _ _ h
  · exact h

lemma mem_foldl_expandEntry_of_mem {q x : String} :
    ∀ (l : List (String × List String)) (acc : List String), x ∈ acc →
      x ∈ l.foldl (expandEntry q) acc := by
  intro l
  induction l with
  | nil => intro acc h; exact h
  | cons e rest ih => intro acc h; exact ih _ (mem_expandEntry_of_mem e h)

lemma mem_foldl_expandEntry_entry {q : String} :
    ∀ (l : List (String × List String)) (acc : List String) (e : String × List String),
      e ∈ l →
      e.2.any (fun syn => strIncludes (jsToLower q) (jsToLower syn)) = true →
      ∀ syn ∈ e.2, jsToLower syn ∈ l.foldl (expandEntry q) acc := by
  intro l
  induction l with
  | nil => intro acc e he; cases he
  | cons a rest ih =>
    intro acc e he hcond syn hsyn
    rcases List.mem_cons.mp he with h1 | h2
    · subst h1
      rw [List.foldl_cons]
      apply mem_foldl_expandEntry_of_mem
      unfold expandEntry
      rw [if_pos hcond]
      exact mem_foldl_insert_self _ _ _ hsyn
    · exact ih _ _ h2 hcond syn hsyn

lemma mem_expandSearchQuery_of_entry {q key : String} {syns : List String}
    (hq : 2 ≤ q.length) (hmem : (key, syns) ∈ SEARCH_SYNONYMS)
    (hcond : syns.any (fun syn => strIncludes (jsToLower q) (jsToLower syn)) = true) :
    ∀ syn ∈ syns, jsToLower syn ∈ expandSearchQuery q := by
  intro syn hs
  unfold expandSearchQuery
  rw [if_neg (by omega)]
  exact mem_foldl_expandEntry_entry _ _ (key, syns) hmem hcond syn hs

lemma self_mem_expandSearchQuery {q : String} (hq : 2 ≤ q.length) :
    jsToLower q ∈ expandSearchQuery q := by
  unfold expandSearchQuery
  rw [if_neg (by omega)]
  exact mem_foldl_expandEntry_of_mem _ _ (List.mem_singleton.mpr rfl)

lemma itemMatches_of_term {terms : List String} {c t : String}
    (ht : t ∈ terms) (hlen : t.length ≠ 0) (hinc : strIncludes (jsToLower c) t = true) :
    itemMatches terms c = true := by
  unfold itemMatches
  refine List.any_eq_true.mpr ⟨t, ht, ?_⟩
  rw [hinc]
  simpa [bne_iff_ne] using hlen

lemma hidden_false_of_match {terms : List String} {sec : Sec} {flags : List Bool} {c : String}
    (hc : c ∈ sec.items) (hm : itemMatches terms c = true) :
    (performSearchSection terms sec flags).hidden = false := by
  have hany : sec.items.any (itemMatches terms) = true := List.any_eq_true.mpr ⟨c, hc, hm⟩
  simp [performSearchSection, hany]

lemma synonyms_length_pos : ∀ e ∈ SEARCH_SYNONYMS, ∀ s ∈ e.2, s.length ≠ 0 := by decide

lemma filter_ne_of_not_mem {l : List String} {q : String} (h : q ∉ l) :
    l.filter (fun item => item != q) = l := by
  induction l with
  | nil => rfl
  | cons a rest ih =>
    have ha : a ≠ q := fun he => h (he ▸ List.mem_cons_self a rest)
    rw [List.filter_cons, if_pos (by simpa [bne_iff_ne] using ha),
      ih (fun hm => h (List.mem_cons_of_mem _ hm))]

lemma filter_ne_length_of_mem {l : List String} {q : String}
    (hnd : l.Nodup) (hmem : q ∈ l) :
    (l.filter (fun item => item != q)).length + 1 = l.length := by
  induction l with
  | nil => cases hmem
  | cons a rest ih =>
    rcases List.nodup_cons.mp hnd with ⟨hna, hnd2⟩
    rcases List.mem_cons.mp hmem with h1 | h2
    · subst h1
      rw [List.filter_cons, if_neg (by simp), filter_ne_of_not_mem hna]
      simp
    · have ha : a ≠ q := fun he => hna (he ▸ h2)
      rw [List.filter_cons, if_pos (by simpa [bne_iff_ne] using ha)]
      have := ih hnd2 h2
      simp only [List.length_cons]
      omega

lemma count_closeAll (s : List Bool) : (closeAll s).count true = 0 :=
  List.count_eq_zero.mpr (by simp [closeAll])

/-! ### Claim theorems -/

/-- C1 (amended): user toggles preserve the accordion mutual-exclusion
invariant: after any `toggleChecklist` click, from any state, at most one
checklist category is open; in particular toggling category 1 while category 0
is open leaves category 0 closed and category 1 open. (Search auto-expansion
does not preserve the invariant; see the counterexample.) -/
theorem toggleChecklist_mutual_exclusion :
    (∀ (s : List Bool) (i : Nat), (toggleChecklist s i).count true ≤ 1) ∧
    toggleChecklist [true, false] 1 = [false, true] := by
  constructor
  · intro s
    induction s with
    | nil => intro i; simp [toggleChecklist]
    | cons b rest ih =>
      intro i
      cases i with
      | zero =>
        show ((!b) :: closeAll rest).count true ≤ 1
        rw [List.count_cons, count_closeAll]
        split <;> simp
      | succ j =>
        show (false :: toggleChecklist rest j).count true ≤ 1
        rw [List.count_cons]
        simpa using ih j
  · decide

/-- C1 counterexample: the claim as stated is false: a search for "여권" over a
checklist DOM with two categories both containing "여권", starting from the
all-closed state, force-opens BOTH categories (`openFlags = [true, true]`),
so more than one category is open at once after `performSearch`. -/
theorem performSearch_autoExpand_opens_two :
    performSearch "여권" [⟨"checklist", ["준비물 여권", "서류 여권"]⟩] [false, false] =
      SearchResult.filtered [⟨[true, true], false, [true, true]⟩] := by decide

/-- C6: after the `activate` handler runs, every surviving cache store is named
`CACHE_NAME`, so (the live store names being distinct) at most one cache
version is live, whatever set of cache store names existed before. -/
theorem activate_purges_stale_caches (names : List String) (h : names.Nodup) :
    (∀ n ∈ activateSurvivors names, n = CACHE_NAME) ∧
    (activateSurvivors names).length ≤ 1 := by
  have hall : ∀ n ∈ activateSurvivors names, n = CACHE_NAME := by
    intro n hn
    have hc := (List.mem_filter.mp hn).2
    simpa [cacheWhitelist] using hc
  refine ⟨hall, ?_⟩
  have hnd : (activateSurvivors names).Nodup := h.filter _
  match hl : activateSurvivors names with
  | [] => simp
  | [x] => simp
  | x :: y :: rest =>
    exfalso
    rw [hl] at hall hnd
    have hx := hall x (List.mem_cons_self _ _)
    have hy := hall y (List.mem_cons_of_mem _ (List.mem_cons_self _ _))
    rcases List.nodup_cons.mp hnd with ⟨hnx, _⟩
    exact hnx (by rw [hx, ← hy]; exact List.mem_cons_self _ _)

/-- C6 witness: activating with an old `v1.0` store and the current store
present leaves only `CACHE_NAME` live. -/
theorem activate_purges_stale_caches_witness :
    (["pilgrimage-guide-v2.1", "pilgrimage-guide-v1.0"] : List String).Nodup ∧
    ((∀ n ∈ activateSurvivors ["pilgrimage-guide-v2.1", "pilgrimage-guide-v1.0"],
        n = CACHE_NAME) ∧
      (activateSurvivors ["pilgrimage-guide-v2.1", "pilgrimage-guide-v1.0"]).length ≤ 1) :=
  ⟨by decide, activate_purges_stale_caches _ (by decide)⟩

/-- C9 (amended): with the `loading` element present, `App.init` reaches the
ready state iff the network fetch succeeds or storage holds a prior `appData`
value, and errors exactly when both sources are empty. (When the `loading`
element is absent, stored data does not rescue a failed fetch; see the
counterexample.) -/
theorem appInit_ready_error_characterization {α : Type} (fetched stored : Option α) :
    (appInit fetched stored true = InitOutcome.ready ↔
      fetched.isSome = true ∨ stored.isSome = true) ∧
    (appInit fetched stored true = InitOutcome.error ↔
      fetched = none ∧ stored = none) := by
  cases fetched <;> cases stored <;> simp [appInit]

/-- C9 counterexample: the claim as stated is false: with the network fetch
failing, a stored `appData` value present, but no `loading` element in the DOM,
`App.init` takes the early-return branch (`if (data && this.loading)` fails)
and terminates without rendering, instead of transitioning to ready. -/
theorem appInit_storage_fallback_requires_loading :
    @appInit Nat none (some 1) false = InitOutcome.error ∧
    @appInit Nat none (some 1) false ≠ InitOutcome.ready := by decide

/-- C2: for every query of length at least 2 that contains some synonym of a
`SEARCH_SYNONYMS` entry, all synonyms of that entry enter the expanded term
set, and every searchable item whose content contains ANY synonym of that
entry matches and its section stays visible after `performSearch`, whether or
not the item contains the literal query. -/
theorem expandSearchQuery_synonym_matching (q key syn0 : String) (syns : List String)
    (hq : 2 ≤ q.length) (hmem : (key, syns) ∈ SEARCH_SYNONYMS) (h0 : syn0 ∈ syns)
    (hmatch : strIncludes (jsToLower q) (jsToLower syn0) = true) :
    (∀ syn ∈ syns, jsToLower syn ∈ expandSearchQuery q) ∧
    (∀ (sec : Sec) (flags : List Bool) (c : String), c ∈ sec.items →
      ∀ syn ∈ syns, strIncludes (jsToLower c) (jsToLower syn) = true →
        itemMatches (expandSearchQuery q) c = true ∧
        (performSearchSection (expandSearchQuery q) sec flags).hidden = false) := by
  have hcond : syns.any (fun syn => strIncludes (jsToLower q) (jsToLower syn)) = true :=
    List.any_eq_true.mpr ⟨syn0, h0, hmatch⟩
  have hexp := mem_expandSearchQuery_of_entry hq hmem hcond
  refine ⟨hexp, ?_⟩
  intro sec flags c hc syn hsyn hinc
  have hlen : (jsToLower syn).length ≠ 0 := by
    rw [jsToLower_length]
    exact synonyms_length_pos (key, syns) hmem syn hsyn
  have hm := itemMatches_of_term (hexp syn hsyn) hlen hinc
  exact ⟨hm, hidden_false_of_match hc hm⟩

/-- C2 witness: the query "루브르" matches the "파리" synonym entry, so all of
"파리", "에펠탑", "루브르" join the term set and items containing any of them
are shown. -/
theorem expandSearchQuery_synonym_matching_witness :
    2 ≤ ("루브르" : String).length ∧
    ("파리", ["파리", "에펠탑", "루브르"]) ∈ SEARCH_SYNONYMS ∧
    "루브르" ∈ (["파리", "에펠탑", "루브르"] : List String) ∧
    strIncludes (jsToLower "루브르") (jsToLower "루브르") = true ∧
    ((∀ syn ∈ (["파리", "에펠탑", "루브르"] : List String),
        jsToLower syn ∈ expandSearchQuery "루브르") ∧
      (∀ (sec : Sec) (flags : List Bool) (c : String), c ∈ sec.items →
        ∀ syn ∈ (["파리", "에펠탑", "루브르"] : List String),
          strIncludes (jsToLower c) (jsToLower syn) = true →
            itemMatches (expandSearchQuery "루브르") c = true ∧
            (performSearchSection (expandSearchQuery "루브르") sec flags).hidden = false)) :=
  ⟨by decide, by decide, by decide, by decide,
    expandSearchQuery_synonym_matching "루브르" "파리" "루브르" ["파리", "에펠탑", "루브르"]
      (by decide) (by decide) (by decide) (by decide)⟩

/-- C3: after `saveSearchHistory` with a trimmed query of length at least 2,
starting from a deduplicated history of at most 5 entries, the history has at
most 5 entries, the saved query sits at index 0, no query occurs twice, and
re-submitting an existing entry does not change the length. -/
theorem saveSearchHistory_bounded_dedup (history : List String) (q : String)
    (hnd : history.Nodup) (hlen : history.length ≤ 5)
    (htrim : jsTrim q = q) (hq : 2 ≤ q.length) :
    (saveSearchHistory history q).length ≤ 5 ∧
    (saveSearchHistory history q).head? = some q ∧
    (saveSearchHistory history q).Nodup ∧
    (q ∈ history → (saveSearchHistory history q).length = history.length) := by
  have hq0 : q ≠ "" := by
    intro h
    rw [h] at hq
    exact absurd hq (by decide)
  have hguard : ¬(jsTrim q = "" ∨ q.length < 2) := by
    rintro (h | h)
    · rw [htrim] at h
      exact hq0 h
    · omega
  unfold saveSearchHistory
  rw [if_neg hguard]
  refine ⟨List.length_take_le _ _, ?_, ?_, ?_⟩
  · rw [show (5 : Nat) = 4 + 1 from rfl, List.take_succ_cons]
    rfl
  · refine (List.take_sublist _ _).nodup (List.nodup_cons.mpr ⟨?_, hnd.filter _⟩)
    intro hm
    have := (List.mem_filter.mp hm).2
    simp at this
  · intro hqmem
    rw [List.length_take, List.length_cons, filter_ne_length_of_mem hnd hqmem]
    exact Nat.min_eq_right hlen

/-- C3 witness: saving "여권" onto the history `["짐"]`. -/
theorem saveSearchHistory_bounded_dedup_witness :
    (["짐"] : List String).Nodup ∧ (["짐"] : List String).length ≤ 5 ∧
    jsTrim "여권" = "여권" ∧ 2 ≤ ("여권" : String).length ∧
    ((saveSearchHistory ["짐"] "여권").length ≤ 5 ∧
      (saveSearchHistory ["짐"] "여권").head? = some "여권" ∧
      (saveSearchHistory ["짐"] "여권").Nodup ∧
      ("여권" ∈ (["짐"] : List String) →
        (saveSearchHistory ["짐"] "여권").length = (["짐"] : List String).length)) :=
  ⟨by decide, by decide, by decide, by decide,
    saveSearchHistory_bounded_dedup ["짐"] "여권" (by decide) (by decide) (by decide) (by decide)⟩

/-- C4: a GET request with a cache hit is answered with the cached response and
the network fetch function is never invoked (`networkCalled = false`, nothing
stored); non-GET requests are not intercepted at all. -/
theorem handleFetch_cache_first (req : Request) (r : Response) (network : Option Response)
    (hget : req.method = "GET") :
    handleFetch req (some r) network = FetchAction.respond r false none ∧
    (∀ (req2 : Request) (cached network2 : Option Response), req2.method ≠ "GET" →
      handleFetch req2 cached network2 = FetchAction.passthrough) := by
  constructor
  · unfold handleFetch
    rw [if_neg (by simp [hget])]
  · intro req2 cached network2 h
    unfold handleFetch
    rw [if_pos (by simpa [bne_iff_ne] using h)]

/-- C4 witness: a cache hit for `/data.json` resolves from the cache without
calling the network. -/
theorem handleFetch_cache_first_witness :
    (⟨"GET", "/data.json"⟩ : Request).method = "GET" ∧
    (handleFetch ⟨"GET", "/data.json"⟩ (some ⟨200, "basic", "cached"⟩) none =
        FetchAction.respond ⟨200, "basic", "cached"⟩ false none ∧
      (∀ (req2 : Request) (cached network2 : Option Response), req2.method ≠ "GET" →
        handleFetch req2 cached network2 = FetchAction.passthrough)) :=
  ⟨rfl, handleFetch_cache_first ⟨"GET", "/data.json"⟩ ⟨200, "basic", "cached"⟩ none rfl⟩

/-- C5: on a GET cache miss answered by the network, the response is stored
into the cache iff it has status 200, type "basic", and the URL passes the
allow-list (`.js`/`.css`/`.png`/`.json` substrings); in either case the
original network response is returned. -/
theorem handleFetch_runtime_allowlist (req : Request) (nr : Response)
    (hget : req.method = "GET") :
    (nr.status = 200 → nr.rtype = "basic" → shouldRuntimeCache req.url = true →
      handleFetch req none (some nr) = FetchAction.respond nr true (some nr)) ∧
    ((nr.status ≠ 200 ∨ nr.rtype ≠ "basic" ∨ shouldRuntimeCache req.url = false) →
      handleFetch req none (some nr) = FetchAction.respond nr true none) := by
  have hred : handleFetch req none (some nr) =
      if (nr.status != 200 || nr.rtype != "basic") = true then FetchAction.respond nr true none
      else if shouldRuntimeCache req.url = true then FetchAction.respond nr true (some nr)
      else FetchAction.respond nr true none := by
    unfold handleFetch
    rw [if_neg (by simp [hget])]
  constructor
  · intro h1 h2 h3
    rw [hred, if_neg (by simp [h1, h2]), if_pos h3]
  · rintro (h | h | h)
    · rw [hred, if_pos (by simp only [Bool.or_eq_true, bne_iff_ne]; exact Or.inl h)]
    · rw [hred, if_pos (by simp only [Bool.or_eq_true, bne_iff_ne]; exact Or.inr h)]
    · rw [hred]
      by_cases hs : (nr.status != 200 || nr.rtype != "basic") = true
      · rw [if_pos hs]
      · rw [if_neg hs, if_neg (by simp [h])]

/-- C5 witness: a 200 "basic" response for `/x.json` is stored, one for
`/x.pdf` is not; both are returned to the page. -/
theorem handleFetch_runtime_allowlist_witness :
    (⟨"GET", "/x.json"⟩ : Request).method = "GET" ∧
    handleFetch ⟨"GET", "/x.json"⟩ none (some ⟨200, "basic", "d"⟩) =
      FetchAction.respond ⟨200, "basic", "d"⟩ true (some ⟨200, "basic", "d"⟩) ∧
    handleFetch ⟨"GET", "/x.pdf"⟩ none (some ⟨200, "basic", "d"⟩) =
      FetchAction.respond ⟨200, "basic", "d"⟩ true none :=
  ⟨rfl,
    (handleFetch_runtime_allowlist ⟨"GET", "/x.json"⟩ ⟨200, "basic", "d"⟩ rfl).1
      rfl rfl (by decide),
    (handleFetch_runtime_allowlist ⟨"GET", "/x.pdf"⟩ ⟨200, "basic", "d"⟩ rfl).2
      (Or.inr (Or.inr (by decide)))⟩

/-- C7: after `performSearch` with a query of length at least 2, every section
is filtered, and a section is hidden exactly when it has at least one
searchable item and none of its items match; a section with zero searchable
items is never hidden. -/
theorem performSearch_section_visibility (q : String) (hq : 2 ≤ q.length)
    (secs : List Sec) (flags : List Bool) :
    performSearch q secs flags =
      SearchResult.filtered
        (secs.map (fun s => performSearchSection (expandSearchQuery q) s flags)) ∧
    ∀ s ∈ secs,
      ((performSearchSection (expandSearchQuery q) s flags).hidden = true ↔
        s.items ≠ [] ∧ ∀ c ∈ s.items, itemMatches (expandSearchQuery q) c = false) := by
  constructor
  · unfold performSearch
    rw [if_neg (by omega)]
  · intro s _
    have hh : (performSearchSection (expandSearchQuery q) s flags).hidden =
        (!(s.items.any (itemMatches (expandSearchQuery q))) && !s.items.isEmpty) := rfl
    rw [hh]
    cases hli : s.items with
    | nil => simp
    | cons a l => simp [List.any_eq_false]

/-- C7 witness: a section with zero searchable items stays visible for the
query "파리". -/
theorem performSearch_section_visibility_witness :
    2 ≤ ("파리" : String).length ∧
    (performSearch "파리" [⟨"info", ([] : List String)⟩] [] =
        SearchResult.filtered
          (([⟨"info", ([] : List String)⟩] : List Sec).map
            (fun s => performSearchSection (expandSearchQuery "파리") s [])) ∧
      ∀ s ∈ ([⟨"info", ([] : List String)⟩] : List Sec),
        ((performSearchSection (expandSearchQuery "파리") s []).hidden = true ↔
          s.items ≠ [] ∧ ∀ c ∈ s.items, itemMatches (expandSearchQuery "파리") c = false)) :=
  ⟨by decide, performSearch_section_visibility "파리" (by decide) _ _⟩

/-- C8: for every raw input whose trimmed value is shorter than 2 characters,
the input handler takes the reset path: every section is restored to visible
and every searchable item is shown. -/
theorem handleInput_reset_below_threshold (raw : String) (secs : List Sec) (flags : List Bool)
    (h : (jsTrim raw).length < 2) :
    handleInput raw secs flags =
      SearchResult.wasReset (secs.map (fun s => resetSection s flags)) ∧
    ∀ s ∈ secs, (resetSection s flags).hidden = false ∧
      ∀ b ∈ (resetSection s flags).itemShown, b = true := by
  constructor
  · unfold handleInput
    rw [if_neg (by rw [jsToLower_length]; omega)]
  · intro s _
    exact ⟨rfl, by simp [resetSection]⟩

/-- C8 witness: the one-character input "a" resets the search. -/
theorem handleInput_reset_below_threshold_witness :
    (jsTrim "a").length < 2 ∧
    (handleInput "a" [⟨"info", ["파리 호텔"]⟩] [] =
        SearchResult.wasReset
          (([⟨"info", ["파리 호텔"]⟩] : List Sec).map (fun s => resetSection s [])) ∧
      ∀ s ∈ ([⟨"info", ["파리 호텔"]⟩] : List Sec), (resetSection s []).hidden = false ∧
        ∀ b ∈ (resetSection s []).itemShown, b = true) :=
  ⟨by decide, handleInput_reset_below_threshold "a" _ _ (by decide)⟩

/-- C10 (implicit): for every query of length at least 2, the expanded term set
contains the lower-cased query itself, so every item whose content contains the
literal lower-cased query matches and its section stays visible, whether or not
any synonym entry applies. -/
theorem expandSearchQuery_keeps_literal (q : String) (hq : 2 ≤ q.length) :
    jsToLower q ∈ expandSearchQuery q ∧
    (∀ (sec : Sec) (flags : List Bool) (c : String), c ∈ sec.items →
      strIncludes (jsToLower c) (jsToLower q) = true →
        itemMatches (expandSearchQuery q) c = true ∧
        (performSearchSection (expandSearchQuery q) sec flags).hidden = false) := by
  have hmem := self_mem_expandSearchQuery hq
  refine ⟨hmem, ?_⟩
  intro sec flags c hc hinc
  have hlen : (jsToLower q).length ≠ 0 := by
    rw [jsToLower_length]
    omega
  have hm := itemMatches_of_term hmem hlen hinc
  exact ⟨hm, hidden_false_of_match hc hm⟩

/-- C10 witness: the query "호텔" (not in any synonym entry) still shows items
containing it literally. -/
theorem expandSearchQuery_keeps_literal_witness :
    2 ≤ ("호텔" : String).length ∧
    (jsToLower "호텔" ∈ expandSearchQuery "호텔" ∧
      (∀ (sec : Sec) (flags : List Bool) (c : String), c ∈ sec.items →
        strIncludes (jsToLower c) (jsToLower "호텔") = true →
          itemMatches (expandSearchQuery "호텔") c = true ∧
          (performSearchSection (expandSearchQuery "호텔") sec flags).hidden = false)) :=
  ⟨by decide, expandSearchQuery_keeps_literal "호텔" (by decide)⟩

